import Mathlib

/-!
Verification of the godog-api-context step-definition library.

Strings are modelled as `List Char`, Go maps as association lists with
last-write-wins update, and fallible Go code as `Except`/explicit result
types.  A Go nil-pointer dereference (a runtime panic) is modelled by an
explicit `panicked` result constructor, and `panic(err)` calls by a
`thrown` panic cause.  External collaborators (the HTTP client, the regex
matcher of the standard library, the JSON-schema validator, the
filesystem) are passed in as explicit executable parameters; the
PaesslerAG jsonpath library and the strconv / encoding-json standard
packages are modelled directly as executable Lean functions.
-/

namespace Apictx

/-- The backtick character, written by code point. -/
def tickChar : Char := Char.ofNat 96

/-- `startsWith s p` is true when `p` is an initial segment of `s`. -/
def startsWith : List Char → List Char → Bool
  | _, [] => true
  | [], _ :: _ => false
  | c :: cs, p :: ps => c == p && startsWith cs ps

/-- Models Go `strings.Replace(s, old, new, 1)`: replace the first
occurrence of `old` in `s` by `new`. -/
def strReplace1 : List Char → List Char → List Char → List Char
  | [], old, new => if old = [] then new else []
  | c :: cs, old, new =>
    if startsWith (c :: cs) old then new ++ (c :: cs).drop old.length
    else c :: strReplace1 cs old new

/-- Models Go `strings.Contains`. -/
def listContains : List Char → List Char → Bool
  | [], sub => sub.isEmpty
  | c :: cs, sub => startsWith (c :: cs) sub || listContains cs sub

/-- Association-list lookup, modelling a read of a Go `map[string]string`
that distinguishes a missing key. -/
def mapLookup : List (List Char × List Char) → List Char → Option (List Char)
  | [], _ => none
  | (k, v) :: rest, key => if k = key then some v else mapLookup rest key

/-- A read of a Go `map[string]string`: a missing key yields the zero
value `""`. -/
def mapGetD (m : List (List Char × List Char)) (key : List Char) : List Char :=
  (mapLookup m key).getD []

/-- Assignment `m[k] = v` on a Go `map[string]string`. -/
def mapSet : List (List Char × List Char) → List Char → List Char → List (List Char × List Char)
  | [], k, v => [(k, v)]
  | (k', v') :: rest, k, v =>
    if k' = k then (k, v) :: rest else (k', v') :: mapSet rest k v

/-- Models Go `strings.Trim(s, string(c))`: remove leading and trailing
occurrences of the character `c`. -/
def trimChar (c : Char) (s : List Char) : List Char :=
  ((s.dropWhile (· == c)).reverse.dropWhile (· == c)).reverse

/-- The lazy group of the regex match: the characters after an opening
"`##" up to (excluding) the first following backtick, together with the
remainder after that backtick. `none` when no closing backtick exists. -/
def splitAtClosingTick : List Char → Option (List Char × List Char)
  | [] => none
  | c :: cs =>
    if c = tickChar then some ([], cs)
    else
      match splitAtClosingTick cs with
      | some (k, r) => some (c :: k, r)
      | none => none

/-- Does the string begin with the three characters backtick, '#', '#'
(the opening of the reference pattern)? -/
def isRefStart : List Char → Bool
  | c :: c1 :: c2 :: _ => c = tickChar && c1 = '#' && c2 = '#'
  | _ => false

/-- The leftmost (and, for the lazy group, shortest) match of the Go
regex pattern backtick-`##`-group-backtick used by
`ReplaceScopeVariables`: returns the text before the match, the captured
group (the key), and the text after the match. -/
def findRefSplit : List Char → Option (List Char × List Char × List Char)
  | [] => none
  | c :: cs =>
    if isRefStart (c :: cs) then
      match splitAtClosingTick (cs.drop 2) with
      | some (k, r) => some ([], k, r)
      | none => none
    else
      match findRefSplit cs with
      | some (p, k, r) => some (c :: p, k, r)
      | none => none

/-- The full text matched by the regex when the captured key is `k`:
backtick, '#', '#', the key, backtick. -/
def refPat (k : List Char) : List Char :=
  tickChar :: '#' :: '#' :: (k ++ [tickChar])

/-! ## JSON values

Go's `encoding/json` unmarshals into `interface{}`: objects become
`map[string]interface{}`, arrays `[]interface{}`, numbers `float64`,
strings `string`, booleans `bool` and null `nil`.  Numbers are modelled
as exact decimal fractions `mant / 10^exp` (faithful whenever the
decimal value is exactly representable in `float64`, as in all the
repository's data); `float64` equality is decimal-value equality. -/

/-- A Go `float64` obtained from decimal text: the value `mant / 10^exp`. -/
structure GoNum where
  mant : Int
  exp : Nat
  deriving Repr

/-- Numeric (`float64 ==`) equality of two decimal values. -/
def GoNum.eqv (a b : GoNum) : Bool :=
  a.mant * (10 : Int) ^ b.exp == b.mant * (10 : Int) ^ a.exp

/-- The result of `json.Unmarshal` into `interface{}`. -/
inductive Json where
  | null : Json
  | bool (b : Bool) : Json
  | num (d : GoNum) : Json
  | str (s : List Char) : Json
  | arr (xs : List Json) : Json
  | obj (fields : List (List Char × Json)) : Json

/-- Is the value an unmarshalled JSON array (`reflect.Kind == Slice`)? -/
def Json.isArr : Json → Bool
  | .arr _ => true
  | _ => false

/-- Models the Go interface comparison `expectedParsed == actual` in
`TheJSONPathShouldHaveValue`, where `expectedParsed` (the left argument)
is always a scalar (`bool`, `float64` or `string`): values of different
dynamic types compare unequal, `float64` values compare numerically. -/
def Json.scalarEq : Json → Json → Bool
  | .bool a, .bool b => a == b
  | .num a, .num b => GoNum.eqv a b
  | .str a, .str b => a == b
  | _, _ => false

/-- Lookup of a key in an unmarshalled JSON object. -/
def fieldLookup : List (List Char × Json) → List Char → Option Json
  | [], _ => none
  | (k, v) :: rest, key => if k = key then some v else fieldLookup rest key

/-- Assignment into an unmarshalled JSON object (Go map semantics:
a duplicated key in the document overwrites the earlier value). -/
def fieldSet : List (List Char × Json) → List Char → Json → List (List Char × Json)
  | [], k, v => [(k, v)]
  | (k', v') :: rest, k, v =>
    if k' = k then (k, v) :: rest else (k', v') :: fieldSet rest k v

/-! ## The JSON parser (`encoding/json.Unmarshal` into `interface{}`) -/

/-- JSON insignificant whitespace. -/
def isJsonWs (c : Char) : Bool :=
  c == ' ' || c == Char.ofNat 9 || c == Char.ofNat 10 || c == Char.ofNat 13

/-- Skip insignificant whitespace. -/
def skipWs (s : List Char) : List Char :=
  s.dropWhile isJsonWs

/-- Numeric value of a digit character. -/
def digToNat (c : Char) : Nat := c.toNat - 48

/-- The natural number denoted by a digit string. -/
def natOfDigits (ds : List Char) : Nat :=
  ds.foldl (fun n c => n * 10 + digToNat c) 0

/-- Combine an unscaled decimal `mant / 10^exp` with a base-ten exponent
`e`, producing the same value in `GoNum` form. -/
def scaleGoNum (mant : Int) (exp : Nat) (e : Int) : GoNum :=
  if (exp : Int) ≤ e then ⟨mant * (10 : Int) ^ (e - (exp : Int)).toNat, 0⟩
  else ⟨mant, ((exp : Int) - e).toNat⟩

/-- Parse an optional exponent part `[eE][+-]?digits`; returns the
exponent and the remainder, or `none` on a malformed exponent. -/
def parseExpPart (s : List Char) : Option (Int × List Char) :=
  match s with
  | c :: rest =>
    if c == 'e' || c == 'E' then
      let (sgn, rest1) : Int × List Char :=
        match rest with
        | '+' :: t => (1, t)
        | '-' :: t => (-1, t)
        | t => (1, t)
      let ds := rest1.takeWhile Char.isDigit
      let rest2 := rest1.dropWhile Char.isDigit
      if ds = [] then none else some (sgn * (natOfDigits ds : Int), rest2)
    else some (0, s)
  | [] => some (0, s)

/-- Parse a JSON number literal (`-?digits(.digits)?([eE][+-]?digits)?`)
into a `GoNum` (the `float64` Go produces), with the remainder. -/
def parseNumber (s : List Char) : Option (GoNum × List Char) :=
  let (neg, s1) : Bool × List Char :=
    match s with
    | '-' :: t => (true, t)
    | t => (false, t)
  let ds := s1.takeWhile Char.isDigit
  let s2 := s1.dropWhile Char.isDigit
  if ds = [] then none
  else
    let (fr, s3) : List Char × List Char :=
      match s2 with
      | '.' :: t => (t.takeWhile Char.isDigit, t.dropWhile Char.isDigit)
      | t => ([], t)
    let frOk : Bool :=
      match s2 with
      | '.' :: t => !(t.takeWhile Char.isDigit).isEmpty
      | _ => true
    if !frOk then none
    else
      match parseExpPart s3 with
      | none => none
      | some (e, s4) =>
        let mant : Int := (natOfDigits (ds ++ fr) : Int)
        let mant := if neg then -mant else mant
        some (scaleGoNum mant fr.length e, s4)

/-- Decode a string-literal escape character. -/
def escChar (c : Char) : Option Char :=
  if c == '"' || c == Char.ofNat 92 || c == '/' then some c
  else if c == 'n' then some (Char.ofNat 10)
  else if c == 't' then some (Char.ofNat 9)
  else if c == 'r' then some (Char.ofNat 13)
  else if c == 'b' then some (Char.ofNat 8)
  else if c == 'f' then some (Char.ofNat 12)
  else none

/-- Parse the body of a string literal (after the opening quote) up to
the closing quote.  `\u` escapes are not modelled. -/
def parseStringBody : Nat → List Char → Option (List Char × List Char)
  | 0, _ => none
  | _ + 1, [] => none
  | fuel + 1, c :: cs =>
    if c == '"' then some ([], cs)
    else if c == Char.ofNat 92 then
      match cs with
      | [] => none
      | e :: cs2 =>
        match escChar e with
        | some ch => (parseStringBody fuel cs2).map (fun p => (ch :: p.1, p.2))
        | none => none
    else (parseStringBody fuel cs).map (fun p => (c :: p.1, p.2))

mutual

/-- Parse one JSON value; fuel decreases on every recursive call. -/
def parseValue : Nat → List Char → Option (Json × List Char)
  | 0, _ => none
  | fuel + 1, s =>
    match skipWs s with
    | 'n' :: 'u' :: 'l' :: 'l' :: r => some (.null, r)
    | 't' :: 'r' :: 'u' :: 'e' :: r => some (.bool true, r)
    | 'f' :: 'a' :: 'l' :: 's' :: 'e' :: r => some (.bool false, r)
    | '"' :: r => (parseStringBody (fuel + 1) r).map (fun p => (.str p.1, p.2))
    | '[' :: r =>
      match skipWs r with
      | ']' :: r2 => some (.arr [], r2)
      | r2 => parseElems fuel r2 []
    | c :: r =>
      if c == Char.ofNat 123 then
        match skipWs r with
        | d :: r2 =>
          if d == Char.ofNat 125 then some (.obj [], r2)
          else parseMembers fuel (d :: r2) []
        | [] => none
      else parseNumber (c :: r) |>.map (fun p => (.num p.1, p.2))
    | [] => none

/-- Parse the elements of a non-empty JSON array (after `[`). -/
def parseElems : Nat → List Char → List Json → Option (Json × List Char)
  | 0, _, _ => none
  | fuel + 1, s, acc =>
    match parseValue fuel s with
    | none => none
    | some (v, rest) =>
      match skipWs rest with
      | ',' :: r2 => parseElems fuel r2 (acc ++ [v])
      | ']' :: r2 => some (.arr (acc ++ [v]), r2)
      | _ => none

/-- Parse the members of a non-empty JSON object (after the opening
brace). -/
def parseMembers : Nat → List Char → List (List Char × Json) → Option (Json × List Char)
  | 0, _, _ => none
  | fuel + 1, s, acc =>
    match skipWs s with
    | '"' :: r =>
      match parseStringBody (fuel + 1) r with
      | none => none
      | some (key, r2) =>
        match skipWs r2 with
        | ':' :: r3 =>
          match parseValue fuel r3 with
          | none => none
          | some (v, r4) =>
            match skipWs r4 with
            | ',' :: r5 => parseMembers fuel r5 (fieldSet acc key v)
            | d :: r5 =>
              if d == Char.ofNat 125 then some (.obj (fieldSet acc key v), r5)
              else none
            | [] => none
        | _ => none
    | _ => none

end

/-- Models `json.Unmarshal(data, &v)` for `v : interface{}`: the whole
input, up to surrounding whitespace, must be one JSON value. -/
def jsonUnmarshal (s : List Char) : Except Unit Json :=
  match parseValue (2 * s.length + 8) s with
  | some (v, rest) => if skipWs rest = [] then .ok v else .error ()
  | none => .error ()

/-! ## strconv -/

/-- Models Go `strconv.ParseBool`: accepts exactly
1, t, T, TRUE, true, True, 0, f, F, FALSE, false, False. -/
def goParseBool (s : List Char) : Except Unit Bool :=
  if s = ['1'] || s = ['t'] || s = ['T'] ||
     s = ['T', 'R', 'U', 'E'] || s = ['t', 'r', 'u', 'e'] || s = ['T', 'r', 'u', 'e'] then
    .ok true
  else if s = ['0'] || s = ['f'] || s = ['F'] ||
     s = ['F', 'A', 'L', 'S', 'E'] || s = ['f', 'a', 'l', 's', 'e'] ||
     s = ['F', 'a', 'l', 's', 'e'] then
    .ok false
  else .error ()

/-- Models Go `strconv.ParseFloat(s, 64)` on decimal literals
(`[+-]?(digits(.digits?)?|.digits)([eE][+-]?digits)?`); the
`Inf`/`NaN`/hexadecimal/underscore forms are not modelled. -/
def goParseFloat (s : List Char) : Except Unit GoNum :=
  let (neg, s1) : Bool × List Char :=
    match s with
    | '-' :: t => (true, t)
    | '+' :: t => (false, t)
    | t => (false, t)
  let ds := s1.takeWhile Char.isDigit
  let s2 := s1.dropWhile Char.isDigit
  let (fr, s3) : List Char × List Char :=
    match s2 with
    | '.' :: t => (t.takeWhile Char.isDigit, t.dropWhile Char.isDigit)
    | t => ([], t)
  if ds = [] ∧ fr = [] then .error ()
  else
    match parseExpPart s3 with
    | none => .error ()
    | some (e, s4) =>
      if s4 = [] then
        let mant : Int := (natOfDigits (ds ++ fr) : Int)
        let mant := if neg then -mant else mant
        .ok (scaleGoNum mant fr.length e)
      else .error ()

/-- Models Go `strconv.ParseInt(s, 10, 64)`. -/
def goParseInt (s : List Char) : Except Unit Int :=
  let (neg, s1) : Bool × List Char :=
    match s with
    | '-' :: t => (true, t)
    | '+' :: t => (false, t)
    | t => (false, t)
  if s1 ≠ [] ∧ s1.all Char.isDigit then
    let v : Int := (natOfDigits s1 : Int)
    let v := if neg then -v else v
    if -(2 : Int) ^ 63 ≤ v ∧ v ≤ 2 ^ 63 - 1 then .ok v else .error ()
  else .error ()

/-! ## jsonpath (models the PaesslerAG/jsonpath library on the root path
`$` and dotted child paths `$.a.b...`, the forms this repository uses) -/

/-- Split a character list on a separator. -/
def splitOnChar (sep : Char) : List Char → List Char → List (List Char)
  | [], acc => [acc.reverse]
  | c :: cs, acc =>
    if c == sep then acc.reverse :: splitOnChar sep cs []
    else splitOnChar sep cs (c :: acc)

/-- One child step of a jsonpath: look a key up in an object value. -/
def jsonpathStep (cur : Json) (key : List Char) : Except (List Char) Json :=
  match cur with
  | .obj fields =>
    match fieldLookup fields key with
    | some v => .ok v
    | none => .error (('u' :: 'n' :: 'k' :: 'n' :: 'o' :: 'w' :: 'n' :: ' ' :: 'k' :: 'e' :: 'y' :: ' ' :: []) ++ key)
  | _ => .error ('n' :: 'o' :: 't' :: ' ' :: 'a' :: 'n' :: ' ' :: 'o' :: 'b' :: 'j' :: 'e' :: 'c' :: 't' :: [])

/-- Models `jsonpath.Get(pathExpr, doc)` for the path forms used here. -/
def jsonpathGet (pathExpr : List Char) (doc : Json) : Except (List Char) Json :=
  match pathExpr with
  | '$' :: [] => .ok doc
  | '$' :: '.' :: rest =>
    (splitOnChar '.' rest []).foldlM jsonpathStep doc
  | _ => .error ('b' :: 'a' :: 'd' :: ' ' :: 'p' :: 'a' :: 't' :: 'h' :: [])

/-! ## fmt rendering and deep JSON equality -/

/-- Remove factors of ten shared between the mantissa and the scale. -/
def stripTenZeros : Int → Nat → Int × Nat
  | m, 0 => (m, 0)
  | m, e + 1 => if m % 10 = 0 ∧ m ≠ 0 then stripTenZeros (m / 10) e else (m, e + 1)

/-- Decimal digits of a natural number. -/
def natToChars (n : Nat) : List Char := Nat.toDigits 10 n

/-- Shortest plain-decimal rendering of a `GoNum` (approximates Go's
`%v` formatting of a `float64` for moderate magnitudes; the exponent
forms Go switches to for extreme values are not modelled). -/
def goSprintNum (d : GoNum) : List Char :=
  let (m, e) := stripTenZeros d.mant d.exp
  let sign : List Char := if m < 0 then ['-'] else []
  let ds := natToChars m.natAbs
  let ds := if ds.length ≤ e then List.replicate (e + 1 - ds.length) '0' ++ ds else ds
  if e = 0 then sign ++ ds
  else sign ++ ds.take (ds.length - e) ++ '.' :: ds.drop (ds.length - e)

mutual

/-- Models `fmt.Sprint` of an unmarshalled JSON value (`%v`): booleans,
numbers and strings render as in Go; composite values render
recursively in Go's bracketed style (map key order is not modelled). -/
def goSprint : Json → List Char
  | .null => '<' :: 'n' :: 'i' :: 'l' :: '>' :: []
  | .bool true => 't' :: 'r' :: 'u' :: 'e' :: []
  | .bool false => 'f' :: 'a' :: 'l' :: 's' :: 'e' :: []
  | .num d => goSprintNum d
  | .str s => s
  | .arr xs => '[' :: (goSprintList xs ++ [']'])
  | .obj fs => 'm' :: 'a' :: 'p' :: '[' :: (goSprintFields fs ++ [']'])

/-- Space-separated rendering of array elements. -/
def goSprintList : List Json → List Char
  | [] => []
  | [x] => goSprint x
  | x :: y :: rest => goSprint x ++ ' ' :: goSprintList (y :: rest)

/-- Space-separated `key:value` rendering of object fields. -/
def goSprintFields : List (List Char × Json) → List Char
  | [] => []
  | [(k, v)] => k ++ ':' :: goSprint v
  | (k, v) :: f :: rest => k ++ ':' :: goSprint v ++ ' ' :: goSprintFields (f :: rest)

end

/-- Structural JSON equality up to object key order (fuel-bounded; the
fuel passed by `isEqualJson` always exceeds the document depth). -/
def jsonDeepEq : Nat → Json → Json → Bool
  | 0, _, _ => false
  | fuel + 1, a, b =>
    match a, b with
    | .null, .null => true
    | .bool x, .bool y => x == y
    | .num x, .num y => GoNum.eqv x y
    | .str x, .str y => x == y
    | .arr xs, .arr ys =>
      xs.length == ys.length &&
        (xs.zip ys).all (fun p => jsonDeepEq fuel p.1 p.2)
    | .obj fs, .obj gs =>
      fs.length == gs.length &&
        fs.all (fun kv =>
          match fieldLookup gs kv.1 with
          | some v => jsonDeepEq fuel kv.2 v
          | none => false)
    | _, _ => false

/-- Modelled from the spec: the repository calls an `isEqualJson` helper
whose source file is not available here.  Per the spec's deep-JSON-
equality contract it parses both documents into generic JSON values and
compares them structurally, key order notwithstanding; a document that
fails to parse is an error. -/
def isEqualJson (actual expected : List Char) : Except Unit Bool :=
  match jsonUnmarshal actual, jsonUnmarshal expected with
  | .ok a, .ok b => .ok (jsonDeepEq (actual.length + expected.length + 1) a b)
  | _, _ => .error ()

/-! ## Step results and errors

Each Go step returns `error` (`nil` meaning success); every
`fmt.Errorf` site is modelled by one structured constructor carrying the
formatted arguments.  A Go runtime panic (nil dereference, or an
explicit `panic(err)`) is a separate outcome: it is not an error return
and never reaches the caller as one. -/

/-- One constructor per distinct failure the assertion and request code
can return. -/
inductive StepError where
  | invalidMethod (method : List Char)
  | transport (msg : List Char)
  | jsonUnmarshalErr
  | jsonPathErr (msg : List Char)
  | strconvErr (fn num : List Char)
  | valueMismatch (expected actual : Json)
  | patternMismatch (value : Json) (pattern : List Char)
  | regexErr (msg : List Char)
  | pathNotPresent (path : List Char)
  | notArray (path : List Char) (found : Json)
  | countMismatch (value : Json) (expected actual : Nat)
  | jsonMismatch (expected actual : List Char)
  | jsonEqParseErr
  | notContains (body s : List Char)
  | bodyPatternMismatch (body pattern : List Char)
  | schemaFileMissing (path : List Char)
  | schemaValidateErr (msg : List Char)
  | schemaInvalid (path : List Char) (errs : List (List Char))
  | headerMismatch (expected actual : List Char)
  | statusMismatch (expected actual : Int) (body : List Char)
  | scopeMismatch (expected actual : List Char)
  | fileOpenErr (path : List Char)

/-- Why a step crashed instead of returning. -/
inductive PanicCause where
  | nilDeref
  | thrown (e : StepError)

/-- The observable outcome of running one step handler. -/
inductive StepResult where
  | ok
  | err (e : StepError)
  | panicked (p : PanicCause)

/-- Did the step return a (non-nil) error to the runner? -/
def StepResult.isErr : StepResult → Bool
  | .err _ => true
  | _ => false

/-! ## Requests, responses and the context -/

/-- One part of a multipart form body. -/
inductive FormPart where
  | field (name value : List Char)
  | file (name fileName contents : List Char)

/-- The body handed to `http.NewRequest`. -/
inductive RequestBody where
  | raw (content : List Char)
  | form (parts : List FormPart)

/-- An outgoing `http.Request` (the parts this library observes). -/
structure Request where
  method : List Char
  url : List Char
  headers : List (List Char × List Char)
  body : RequestBody

/-- `req.Header.Set(name, value)` (MIME canonicalization of the header
name is not modelled). -/
def setReqHeader (r : Request) (name value : List Char) : Request :=
  { r with headers := mapSet r.headers name value }

/-- An incoming `http.Response` with its body already read. -/
structure Response where
  statusCode : Int
  headers : List (List Char × List Char)
  body : List Char

/-- The `ApiResponse` snapshot: status code, body text, and the response
headers (standing for the retained `ResponseObj`). -/
structure ApiResponse where
  statusCode : Int
  body : List Char
  responseHeaders : List (List Char × List Char)

/-- The HTTP client `ctx.client.Do`, supplied by the platform. -/
def HttpClient : Type :=
  Request → Except (List Char) Response

/-- A regex matcher standing for `regexp.MatchString pattern s`
(compilation failure is the error case). -/
def RegexMatcher : Type :=
  List Char → List Char → Except (List Char) Bool

/-- A validator standing for `gojsonschema.Validate`: given schema text
and document text, either fails or reports validity plus the list of
violations. -/
def SchemaValidator : Type :=
  List Char → List Char → Except (List Char) (Bool × List (List Char))

/-- The files visible to the process, path to contents (`os.Stat`
succeeds exactly when the path is present). -/
def FileSystem : Type :=
  List (List Char × List Char)

/-- The default path to JSON schema files. -/
def defaultSchemasPath : List Char := 's' :: 'c' :: 'h' :: 'e' :: 'm' :: 'a' :: 's' :: []

/-- ApiContext main struct. -/
structure ApiContext where
  baseURL : List Char
  jSONSchemasPath : List Char
  debug : Bool
  headers : List (List Char × List Char)
  queryParams : List (List Char × List Char)
  lastResponse : Option ApiResponse
  lastRequest : Option Request
  scope : List (List Char × List Char)

/-- `New` creates a new instance of the API Context. -/
def ApiContext.New (baseURL : List Char) : ApiContext :=
  { baseURL := baseURL
    jSONSchemasPath := defaultSchemasPath
    debug := false
    headers := []
    queryParams := []
    lastResponse := none
    lastRequest := none
    scope := [] }

/-- `reset` resets the internal state of the API context before a
scenario (the `*godog.Scenario` argument is unused by the source). -/
def ApiContext.reset (ctx : ApiContext) : ApiContext :=
  { ctx with
    headers := []
    queryParams := []
    lastResponse := none
    lastRequest := none }

/-! ## Scope store and substitution -/

/-- `StoreScopeData` stores data in the scope map (the Go step always
returns a nil error, so only the state is modelled). -/
def ApiContext.StoreScopeData (ctx : ApiContext) (scopeKeyName value : List Char) : ApiContext :=
  { ctx with scope := mapSet ctx.scope scopeKeyName value }

/-- `ReplaceScopeVariables`: find the first match of the regex
backtick-`##`-lazy-group-backtick; if there is no match, or the captured
key is empty, return the data unchanged; otherwise replace the first
occurrence of the matched text with the scope value of the key (the
empty string when the key is absent). -/
def ApiContext.ReplaceScopeVariables (ctx : ApiContext) (data : List Char) : List Char :=
  match findRefSplit data with
  | none => data
  | some (_, key, _) =>
    if key.length < 1 then data
    else strReplace1 data (refPat key) (mapGetD ctx.scope key)

/-- `TheScopeVariableShouldHaveValue` verifies the value of a scope
variable (a missing key reads as the empty string). -/
def ApiContext.TheScopeVariableShouldHaveValue (ctx : ApiContext)
    (scopeKeyName expectedValue : List Char) : StepResult :=
  if mapGetD ctx.scope scopeKeyName ≠ expectedValue then
    .err (.scopeMismatch expectedValue (mapGetD ctx.scope scopeKeyName))
  else .ok

/-! ## Header and query-parameter accumulation -/

/-- `ISetHeadersTo` sets request headers from a data table; each value
cell passes through `ReplaceScopeVariables` before being stored. -/
def ApiContext.ISetHeadersTo (ctx : ApiContext)
    (rows : List (List Char × List Char)) : ApiContext :=
  rows.foldl
    (fun c row =>
      { c with headers := mapSet c.headers row.1 (c.ReplaceScopeVariables row.2) })
    ctx

/-- `ISetHeaderWithValue` adds a single header; the value is stored
verbatim (no scope substitution). -/
def ApiContext.ISetHeaderWithValue (ctx : ApiContext)
    (name value : List Char) : ApiContext :=
  { ctx with headers := mapSet ctx.headers name value }

/-- `ISetQueryParamWithValue` adds a query parameter; the value passes
through `ReplaceScopeVariables`. -/
def ApiContext.ISetQueryParamWithValue (ctx : ApiContext)
    (name value : List Char) : ApiContext :=
  { ctx with queryParams := mapSet ctx.queryParams name (ctx.ReplaceScopeVariables value) }

/-- `ISetQueryParamsTo` sets query parameters from a data table; each
value cell passes through `ReplaceScopeVariables`. -/
def ApiContext.ISetQueryParamsTo (ctx : ApiContext)
    (rows : List (List Char × List Char)) : ApiContext :=
  rows.foldl
    (fun c row =>
      { c with queryParams := mapSet c.queryParams row.1 (c.ReplaceScopeVariables row.2) })
    ctx

/-! ## Request construction and sending -/

/-- Is `c` a valid HTTP method token character
(`net/http`'s `validMethod` via `httpguts.IsTokenRune`)? -/
def isTokenChar (c : Char) : Bool :=
  c.isAlphanum || c == '!' || c == '#' || c == Char.ofNat 36 || c == Char.ofNat 37 ||
    c == Char.ofNat 38 || c == Char.ofNat 39 || c == '*' || c == '+' || c == '-' ||
    c == '.' || c == Char.ofNat 94 || c == '_' || c == Char.ofNat 96 || c == '|' ||
    c == Char.ofNat 126

/-- Models `http.NewRequest`: an empty method means GET; a method with a
non-token character is rejected with an error and a nil request.  (URL
parse failures, the other rejection route, are not modelled
separately.) -/
def httpNewRequest (method url : List Char) (body : RequestBody) :
    Except StepError Request :=
  let m := if method = [] then 'G' :: 'E' :: 'T' :: [] else method
  if m.all isTokenChar then .ok { method := m, url := url, headers := [], body := body }
  else .error (.invalidMethod method)

/-- The Go loop `for name, value := range ctx.headers { req.Header.Set(name, value) }`
run against a request pointer that may be nil: with at least one header
and a nil request the first iteration dereferences nil and panics. -/
def setHeadersLoop : List (List Char × List Char) → Option Request →
    Except PanicCause (Option Request)
  | [], r => .ok r
  | (_, _) :: _, none => .error .nilDeref
  | (n, v) :: rest, some r => setHeadersLoop rest (some (setReqHeader r n v))

/-- Capture a response into the `ApiResponse` snapshot (the body is read
fully into memory; a body-read failure is not modelled). -/
def captureResponse (resp : Response) : ApiResponse :=
  { statusCode := resp.statusCode, body := resp.body, responseHeaders := resp.headers }

/-- `ISendRequestToWithBody` sends a request with a raw document body.
Faithful to the source's statement order: the accumulated headers are
written into the new request *before* the request-construction error is
checked, so a failed construction with a non-empty header accumulator
dereferences the nil request. -/
def ApiContext.ISendRequestToWithBody (ctx : ApiContext) (client : HttpClient)
    (method uri requestBody : List Char) : StepResult × ApiContext :=
  let reqURL := ctx.baseURL ++ uri
  let jsonBody := ctx.ReplaceScopeVariables requestBody
  let reqE := httpNewRequest method reqURL (.raw jsonBody)
  match setHeadersLoop ctx.headers reqE.toOption with
  | .error p => (.panicked p, ctx)
  | .ok reqOpt =>
    match reqE with
    | .error e => (.err e, ctx)
    | .ok _ =>
      match reqOpt with
      | none => (.panicked .nilDeref, ctx)
      | some req =>
        let ctx1 := { ctx with lastRequest := some req }
        match client req with
        | .error msg => (.err (.transport msg), ctx1)
        | .ok resp => (.ok, { ctx1 with lastResponse := some (captureResponse resp) })

/-- The `text` kind marker of a form-table row. -/
def kindText : List Char := 't' :: 'e' :: 'x' :: 't' :: []

/-- The `file` kind marker of a form-table row. -/
def kindFile : List Char := 'f' :: 'i' :: 'l' :: 'e' :: []

/-- `filepath.Split`'s file component: everything after the last `/`. -/
def baseName (path : List Char) : List Char :=
  (path.reverse.takeWhile (fun c => !(c == '/'))).reverse

/-- The Go loop over a form-body table: a `text` row writes a form field
with a substitution-resolved value; a `file` row opens the named file —
`panic(err)` when the open fails — and streams it as a form file part
named by the file's base name; a row of any other kind is skipped.
(Writes into the in-memory multipart buffer cannot fail.) -/
def processFormRows (ctx : ApiContext) (fsFiles : FileSystem) :
    List (List Char × List Char × List Char) → List FormPart →
    Except PanicCause (List FormPart)
  | [], acc => .ok acc.reverse
  | (key, value0, kind) :: rest, acc =>
    let value := ctx.ReplaceScopeVariables value0
    if kind = kindText then
      processFormRows ctx fsFiles rest (.field key value :: acc)
    else if kind = kindFile then
      match mapLookup fsFiles value with
      | none => .error (.thrown (.fileOpenErr value))
      | some contents =>
        processFormRows ctx fsFiles rest (.file key (baseName value) contents :: acc)
    else processFormRows ctx fsFiles rest acc

/-- The `Content-Type` header name. -/
def contentTypeName : List Char :=
  'C' :: 'o' :: 'n' :: 't' :: 'e' :: 'n' :: 't' :: '-' :: 'T' :: 'y' :: 'p' :: 'e' :: []

/-- The multipart content type (the random boundary parameter is not
modelled). -/
def multipartContentType : List Char :=
  ('m' :: 'u' :: 'l' :: 't' :: 'i' :: 'p' :: 'a' :: 'r' :: 't' :: '/' :: []) ++
    ('f' :: 'o' :: 'r' :: 'm' :: '-' :: 'd' :: 'a' :: 't' :: 'a' :: [])

/-- `ISendRequestToWithFormBody` sends a request with a multipart form
body assembled from the table rows; file contents come from the
filesystem parameter. -/
def ApiContext.ISendRequestToWithFormBody (ctx : ApiContext) (client : HttpClient)
    (fsFiles : FileSystem) (method uri : List Char)
    (requestBodyTable : List (List Char × List Char × List Char)) :
    StepResult × ApiContext :=
  let reqURL := ctx.baseURL ++ uri
  match processFormRows ctx fsFiles requestBodyTable [] with
  | .error p => (.panicked p, ctx)
  | .ok parts =>
    match httpNewRequest method reqURL (.form parts) with
    | .error e => (.err e, ctx)
    | .ok req0 =>
      let req1 := setReqHeader req0 contentTypeName multipartContentType
      let req := ctx.headers.foldl (fun r nv => setReqHeader r nv.1 nv.2) req1
      let ctx1 := { ctx with lastRequest := some req }
      match client req with
      | .error msg => (.err (.transport msg), ctx1)
      | .ok resp => (.ok, { ctx1 with lastResponse := some (captureResponse resp) })

/-! ## Assertion steps

Each of these reads `ctx.lastResponse` with no nil check; when no
response has been captured the read dereferences nil, which is a Go
runtime panic (`.panicked .nilDeref`), not an error return. -/

/-- `TheResponseCodeShouldBe` checks the status code of the last
response. -/
def ApiContext.TheResponseCodeShouldBe (ctx : ApiContext) (statusCode : Int) :
    StepResult :=
  match ctx.lastResponse with
  | none => .panicked .nilDeref
  | some resp =>
    if statusCode ≠ resp.statusCode then
      .err (.statusMismatch statusCode resp.statusCode resp.body)
    else .ok

/-- `TheResponseShouldBeAValidJSON` checks that the last response body
parses as JSON. -/
def ApiContext.TheResponseShouldBeAValidJSON (ctx : ApiContext) : StepResult :=
  match ctx.lastResponse with
  | none => .panicked .nilDeref
  | some resp =>
    match jsonUnmarshal resp.body with
    | .ok _ => .ok
    | .error _ => .err .jsonUnmarshalErr

/-- The name strconv reports for a failed `ParseBool`. -/
def pbName : List Char :=
  'P' :: 'a' :: 'r' :: 's' :: 'e' :: 'B' :: 'o' :: 'o' :: 'l' :: []

/-- The name strconv reports for a failed `ParseFloat`. -/
def pfName : List Char :=
  'P' :: 'a' :: 'r' :: 's' :: 'e' :: 'F' :: 'l' :: 'o' :: 'a' :: 't' :: []

/-- `TheJSONPathShouldHaveValue`: unmarshal the body, evaluate the json
path, then parse the (substitution-resolved) expected text according to
the runtime type of the actual value — `ParseBool` for a bool,
`ParseFloat` for a `float64` (the `reflect.Int32`/`Int64` arms of the
source switch are unreachable, since unmarshalling into `interface{}`
only yields `float64` numbers), the raw string otherwise — and compare.
A `nil` actual value makes `reflect.TypeOf(actualValue).Kind()` a
method call on a nil interface, a runtime panic. -/
def ApiContext.TheJSONPathShouldHaveValue (ctx : ApiContext)
    (pathExpr expectedValue : List Char) : StepResult :=
  match ctx.lastResponse with
  | none => .panicked .nilDeref
  | some resp =>
    let expected := ctx.ReplaceScopeVariables expectedValue
    match jsonUnmarshal resp.body with
    | .error _ => .err .jsonUnmarshalErr
    | .ok jsonData =>
      match jsonpathGet pathExpr jsonData with
      | .error m => .err (.jsonPathErr m)
      | .ok actualValue =>
        match actualValue with
        | .null => .panicked .nilDeref
        | .bool _ =>
          match goParseBool expected with
          | .error _ => .err (.strconvErr pbName expected)
          | .ok b =>
            if Json.scalarEq (.bool b) actualValue then .ok
            else .err (.valueMismatch (.bool b) actualValue)
        | .num _ =>
          match goParseFloat expected with
          | .error _ => .err (.strconvErr pfName expected)
          | .ok q =>
            if Json.scalarEq (.num q) actualValue then .ok
            else .err (.valueMismatch (.num q) actualValue)
        | _ =>
          if Json.scalarEq (.str expected) actualValue then .ok
          else .err (.valueMismatch (.str expected) actualValue)

/-- `TheJSONPathShouldMatch` checks the value at the json path against a
regex pattern (stringifying non-string values with `fmt.Sprint`). -/
def ApiContext.TheJSONPathShouldMatch (ctx : ApiContext) (matcher : RegexMatcher)
    (pathExpr pattern : List Char) : StepResult :=
  match ctx.lastResponse with
  | none => .panicked .nilDeref
  | some resp =>
    match jsonUnmarshal resp.body with
    | .error _ => .err .jsonUnmarshalErr
    | .ok jsonData =>
      match jsonpathGet pathExpr jsonData with
      | .error m => .err (.jsonPathErr m)
      | .ok value =>
        let subject :=
          match value with
          | .str s => s
          | v => goSprint v
        match matcher pattern subject with
        | .error m => .err (.regexErr m)
        | .ok true => .ok
        | .ok false => .err (.patternMismatch value pattern)

/-- `TheJSONPathShouldBePresent` checks that the json path resolves to a
non-null value (a path-evaluation error is its own failure). -/
def ApiContext.TheJSONPathShouldBePresent (ctx : ApiContext)
    (pathExpr : List Char) : StepResult :=
  match ctx.lastResponse with
  | none => .panicked .nilDeref
  | some resp =>
    match jsonUnmarshal resp.body with
    | .error _ => .err .jsonUnmarshalErr
    | .ok jsonData =>
      match jsonpathGet pathExpr jsonData with
      | .error m => .err (.jsonPathErr m)
      | .ok value =>
        match value with
        | .null => .err (.pathNotPresent pathExpr)
        | _ => .ok

/-- `TheJSONPathHaveCount` checks that the json path resolves to an
array of exactly the expected length; any non-array value is a failure
naming that value. -/
def ApiContext.TheJSONPathHaveCount (ctx : ApiContext)
    (pathExpr : List Char) (expectedCount : Nat) : StepResult :=
  match ctx.lastResponse with
  | none => .panicked .nilDeref
  | some resp =>
    match jsonUnmarshal resp.body with
    | .error _ => .err .jsonUnmarshalErr
    | .ok jsonData =>
      match jsonpathGet pathExpr jsonData with
      | .error m => .err (.jsonPathErr m)
      | .ok value =>
        match value with
        | .arr xs =>
          if xs.length ≠ expectedCount then
            .err (.countMismatch (.arr xs) expectedCount xs.length)
          else .ok
        | v => .err (.notArray pathExpr v)

/-- The newline character. -/
def nlChar : Char := Char.ofNat 10

/-- `TheResponseShouldMatchJSON` compares the (newline-trimmed) body
against the substitution-resolved expected document via deep JSON
equality. -/
def ApiContext.TheResponseShouldMatchJSON (ctx : ApiContext)
    (bodyContent : List Char) : StepResult :=
  match ctx.lastResponse with
  | none => .panicked .nilDeref
  | some resp =>
    let actual := trimChar nlChar resp.body
    let expected := ctx.ReplaceScopeVariables bodyContent
    match isEqualJson actual expected with
    | .error _ => .err .jsonEqParseErr
    | .ok true => .ok
    | .ok false => .err (.jsonMismatch expected actual)

/-- `TheResponseBodyShouldContain` checks that the (newline-trimmed)
body contains the substitution-resolved string. -/
def ApiContext.TheResponseBodyShouldContain (ctx : ApiContext)
    (s : List Char) : StepResult :=
  match ctx.lastResponse with
  | none => .panicked .nilDeref
  | some resp =>
    let bodyContent := trimChar nlChar resp.body
    if !listContains bodyContent (ctx.ReplaceScopeVariables s) then
      .err (.notContains bodyContent s)
    else .ok

/-- `TheResponseBodyShouldMatch` checks the raw body against a regex
pattern. -/
def ApiContext.TheResponseBodyShouldMatch (ctx : ApiContext)
    (matcher : RegexMatcher) (pattern : List Char) : StepResult :=
  match ctx.lastResponse with
  | none => .panicked .nilDeref
  | some resp =>
    match matcher pattern resp.body with
    | .error m => .err (.regexErr m)
    | .ok true => .ok
    | .ok false => .err (.bodyPatternMismatch resp.body pattern)

/-- `TheResponseHeaderShouldHaveValue` compares a response header (the
Go `Header.Get` of a missing name is the empty string) against the
substitution-resolved expected value. -/
def ApiContext.TheResponseHeaderShouldHaveValue (ctx : ApiContext)
    (name expectedValue : List Char) : StepResult :=
  match ctx.lastResponse with
  | none => .panicked .nilDeref
  | some resp =>
    let actualValue := mapGetD resp.responseHeaders name
    if actualValue ≠ ctx.ReplaceScopeVariables expectedValue then
      .err (.headerMismatch expectedValue actualValue)
    else .ok

/-- The on-disk location of a schema: the configured directory, a slash,
and the slash-trimmed relative path. -/
def schemaFullPath (base path : List Char) : List Char :=
  base ++ '/' :: trimChar '/' path

/-- `TheResponseShouldMatchJsonSchema` loads a schema file and validates
the body.  Faithful to the source's statement order: the file is
stat'ed and read *before* the last response is dereferenced, so a
missing schema file yields its own error even with no response, while an
existing one leads to the nil dereference. -/
def ApiContext.TheResponseShouldMatchJsonSchema (ctx : ApiContext)
    (validator : SchemaValidator) (fsFiles : FileSystem) (path : List Char) :
    StepResult :=
  let schemaPath := schemaFullPath ctx.jSONSchemasPath path
  match mapLookup fsFiles schemaPath with
  | none => .err (.schemaFileMissing schemaPath)
  | some schemaContents =>
    match ctx.lastResponse with
    | none => .panicked .nilDeref
    | some resp =>
      match validator schemaContents resp.body with
      | .error m => .err (.schemaValidateErr m)
      | .ok (true, _) => .ok
      | .ok (false, errs) => .err (.schemaInvalid path errs)

/-! ## Concrete inputs used by the verification -/

/-- A base URL. -/
def baseB : List Char := ("http://base").toList

/-- Another base URL, for a separate fresh context. -/
def baseCE : List Char := ("http://other").toList

/-- A client that always fails at the transport level (its behaviour is
irrelevant to the facts proved about pre-send failures). -/
def dummyClient : HttpClient := fun _ => .error (("connection refused").toList)

/-- A matcher that accepts everything. -/
def dummyMatcher : RegexMatcher := fun _ _ => .ok true

/-- A validator that accepts everything. -/
def dummyValidator : SchemaValidator := fun _ _ => .ok (true, [])

/-- The body of the spec's JSON-path example. -/
def bodyC4 : List Char := ("\x7b\"a\":\"a\",\"b\":2,\"c\":3.5,\"d\":true\x7d").toList

/-- A captured response holding `bodyC4`. -/
def respC4 : ApiResponse := { statusCode := 200, body := bodyC4, responseHeaders := [] }

/-- A context that has captured `respC4`. -/
def ctxC4 : ApiContext := { ApiContext.New baseB with lastResponse := some respC4 }

/-- The unmarshalled form of `bodyC4`. -/
def jC4 : Json :=
  .obj [(['a'], .str ['a']), (['b'], .num ⟨2, 0⟩), (['c'], .num ⟨35, 1⟩), (['d'], .bool true)]

/-- The path `$.a`. -/
def pathA : List Char := ("$.a").toList

/-- The path `$.b`. -/
def pathB : List Char := ("$.b").toList

/-- The path `$.c`. -/
def pathC : List Char := ("$.c").toList

/-- The path `$.d`. -/
def pathD : List Char := ("$.d").toList

/-- The root path `$`. -/
def pathRoot : List Char := ['$']

/-- Expected values of the JSON-path example. -/
def valA : List Char := ['a']

/-- The expected text "2". -/
def valB : List Char := ['2']

/-- The expected text "3.5". -/
def valC : List Char := ("3.5").toList

/-- The expected text "true". -/
def valD : List Char := ("true").toList

/-- An expected text no float parses from. -/
def valAbc : List Char := ("abc").toList

/-- A root-level two-element array body. -/
def bodyC7 : List Char := ("[\"x\",\"y\"]").toList

/-- A captured response holding `bodyC7`. -/
def respC7 : ApiResponse := { statusCode := 200, body := bodyC7, responseHeaders := [] }

/-- A context that has captured `respC7`. -/
def ctxC7 : ApiContext := { ApiContext.New baseB with lastResponse := some respC7 }

/-- The unmarshalled form of `bodyC7`. -/
def jC7 : Json := .arr [.str ['x'], .str ['y']]

/-- The scope key "k". -/
def kKey : List Char := ['k']

/-- The scope value "v". -/
def vVal : List Char := ['v']

/-- A fresh context with `k ↦ v` stored in scope. -/
def ctxKV : ApiContext := (ApiContext.New baseB).StoreScopeData kKey vVal

/-- A string whose first regex match has an empty key while a later full
reference to the stored key `k` is present. -/
def xMixed : List Char := ("`##` `##k`").toList

/-- The round-trip input with a reference to `k`. -/
def strRT : List Char := ("prefix `##k` suffix").toList

/-- The round-trip result with `k ↦ v`. -/
def strRTres : List Char := ("prefix v suffix").toList

/-- The round-trip result with `k` unset. -/
def strRTunset : List Char := ("prefix  suffix").toList

/-- A string with no marker syntax. -/
def strPlain : List Char := ("hello world").toList

/-- Another string with no marker syntax. -/
def sHello : List Char := ("hello").toList

/-- A method `http.NewRequest` rejects (the space is not a token
character). -/
def badMethod : List Char := ("BAD METHOD").toList

/-- The POST method. -/
def postMethod : List Char := ("POST").toList

/-- A request path. -/
def uriX : List Char := ("/x").toList

/-- An upload request path. -/
def uriUp : List Char := ("/upload").toList

/-- A raw request body document. -/
def bodyX : List Char := ("\x7b\"name\":\"b\"\x7d").toList

/-- A form field name. -/
def fKey : List Char := ['f']

/-- An upload path present in no filesystem used here. -/
def missingPath : List Char := ("nofile").toList

/-- Another missing upload path. -/
def filePathP : List Char := ("missing.txt").toList

/-- A text-field name for a form row. -/
def tName : List Char := ("note").toList

/-- A text-field value for a form row. -/
def tVal : List Char := ("hi").toList

/-- The Content-Type header name as written by the tests. -/
def ctName : List Char := ("Content-Type").toList

/-- A JSON content type value. -/
def appJson : List Char := ("application/json").toList

/-- A fresh context with one accumulated header. -/
def ctxOneH : ApiContext := (ApiContext.New baseB).ISetHeaderWithValue ctName appJson

/-- A key never stored in any scope used here. -/
def neverKey : List Char := ("never-stored").toList

/-- A non-empty expected value. -/
def vX : List Char := ['x']

/-- A schema file relative path. -/
def pSch : List Char := ("person.json").toList

/-- Stand-in schema file contents. -/
def schemaDummy : List Char := ("dummy-schema").toList

/-- A filesystem containing the schema file at its resolved location. -/
def fsWithSchema : FileSystem := [(schemaFullPath defaultSchemasPath pSch, schemaDummy)]

/-! ## Helper lemmas -/

/-- Reading back the key just set in a Go map yields the written value. -/
theorem mapGetD_mapSet_self (m : List (List Char × List Char)) (k v : List Char) :
    mapGetD (mapSet m k v) k = v := by
  induction m with
  | nil => simp [mapSet, mapGetD, mapLookup]
  | cons kv rest ih =>
    obtain ⟨k', v'⟩ := kv
    by_cases h : k' = k
    · subst h
      simp [mapSet, mapGetD, mapLookup]
    · simp only [mapSet, if_neg h]
      simpa [mapGetD, mapLookup, h] using ih

/-- A missing key reads as the empty string. -/
theorem mapGetD_of_lookup_none (m : List (List Char × List Char)) (k : List Char)
    (h : mapLookup m k = none) : mapGetD m k = [] := by
  simp [mapGetD, h]

/-- The lazy group returned by `splitAtClosingTick` reconstructs its
input: the characters before the first backtick, the backtick, the
rest. -/
theorem splitTick_eq : ∀ (cs k r : List Char),
    splitAtClosingTick cs = some (k, r) → cs = k ++ tickChar :: r := by
  intro cs
  induction cs with
  | nil => intro k r h; simp [splitAtClosingTick] at h
  | cons c cs ih =>
    intro k r h
    by_cases hc : c = tickChar
    · subst hc
      simp [splitAtClosingTick] at h
      obtain ⟨hk, hr⟩ := h
      subst hk; subst hr
      simp
    · simp only [splitAtClosingTick, if_neg hc] at h
      cases hs : splitAtClosingTick cs with
      | none => rw [hs] at h; exact absurd h (by simp)
      | some p =>
        obtain ⟨k1, r1⟩ := p
        rw [hs] at h
        simp at h
        obtain ⟨hk, hr⟩ := h
        subst hk; subst hr
        simpa using congrArg (c :: ·) (ih k1 r1 hs)

/-- A list starts with itself (followed by anything). -/
theorem startsWith_append_self : ∀ (p s : List Char), startsWith (p ++ s) p = true := by
  intro p
  induction p with
  | nil => intro s; cases s <;> rfl
  | cons c p ih => intro s; simp [startsWith, ih]

/-- A string that starts with the full reference pattern starts with the
three opening marker characters. -/
theorem startsWith_refPat_isRefStart : ∀ (c : Char) (cs k : List Char),
    startsWith (c :: cs) (refPat k) = true → isRefStart (c :: cs) = true := by
  intro c cs k h
  cases cs with
  | nil => simp [refPat, startsWith] at h
  | cons c1 cs1 =>
    cases cs1 with
    | nil => simp [refPat, startsWith] at h
    | cons c2 cs2 =>
      simp [refPat, startsWith] at h
      obtain ⟨hc, h1, h2, _⟩ := h
      simp [isRefStart, hc, h1, h2]

/-- Replacing the first occurrence of the matched reference text
replaces exactly the regex match found by `findRefSplit`: the first
occurrence of the matched text in the input is the match itself. -/
theorem findRef_replace (v : List Char) :
    ∀ (data p k r : List Char), findRefSplit data = some (p, k, r) →
      strReplace1 data (refPat k) v = p ++ v ++ r := by
  intro data
  induction data with
  | nil => intro p k r h; simp [findRefSplit] at h
  | cons c cs ih =>
    intro p k r h
    by_cases hstart : isRefStart (c :: cs) = true
    · simp only [findRefSplit, hstart, if_true] at h
      cases hs : splitAtClosingTick (cs.drop 2) with
      | none => rw [hs] at h; exact absurd h (by simp)
      | some pr =>
        obtain ⟨k1, r1⟩ := pr
        rw [hs] at h
        simp at h
        obtain ⟨hp, hk, hr⟩ := h
        subst hp; subst hk; subst hr
        cases cs with
        | nil => simp [isRefStart] at hstart
        | cons c1 cs1 =>
          cases cs1 with
          | nil => simp [isRefStart] at hstart
          | cons c2 cs2 =>
            simp [isRefStart] at hstart
            obtain ⟨⟨hc, h1⟩, h2⟩ := hstart
            subst hc; subst h1; subst h2
            have hcs2 : cs2 = k1 ++ tickChar :: r1 := splitTick_eq _ _ _ hs
            subst hcs2
            have hdata : tickChar :: '#' :: '#' :: (k1 ++ tickChar :: r1) = refPat k1 ++ r1 := by
              simp [refPat]
            rw [hdata]
            have hsw : startsWith (refPat k1 ++ r1) (refPat k1) = true :=
              startsWith_append_self _ _
            cases hrp : refPat k1 with
            | nil => simp [refPat] at hrp
            | cons a as =>
              rw [hrp] at hsw
              have hdrop : ((a :: as) ++ r1).drop (a :: as).length = r1 := List.drop_left _ _
              simp only [List.cons_append] at hsw hdrop
              simp [strReplace1, List.append_eq, hsw, hdrop]
    · simp only [findRefSplit, hstart, if_false] at h
      cases hf : findRefSplit cs with
      | none => rw [hf] at h; exact absurd h (by simp)
      | some pr =>
        obtain ⟨p1, pr1⟩ := pr
        obtain ⟨k1, r1⟩ := pr1
        rw [hf] at h
        simp at h
        obtain ⟨hp, hk, hr⟩ := h
        subst hp; subst hk; subst hr
        have hnsw : startsWith (c :: cs) (refPat k1) = false := by
          cases hq : startsWith (c :: cs) (refPat k1) with
          | false => rfl
          | true => exact absurd (startsWith_refPat_isRefStart _ _ _ hq) hstart
        simp only [strReplace1, hnsw, if_false, Bool.false_eq_true]
        rw [ih _ _ _ hf]
        simp

/-! ## Claim C2: scenario reset -/

/-- C2 counterexample: the reset operation does not clear the scope
store.  After storing `k ↦ v`, a reset context still carries the entry,
so the claim that all five pieces of per-scenario state are empty after
reset is false. -/
theorem C2_counterexample :
    (ApiContext.reset ctxKV).scope = [(kKey, vVal)] ∧
      ¬ (ApiContext.reset ctxKV).scope = [] := by
  exact ⟨rfl, by decide⟩

/-- C2 (amended): the scenario reset empties the header accumulator and
the query-parameter accumulator and clears the last captured request and
response, but leaves the scope store untouched. -/
theorem C2_theorem (ctx : ApiContext) :
    (ApiContext.reset ctx).headers = [] ∧
    (ApiContext.reset ctx).queryParams = [] ∧
    (ApiContext.reset ctx).lastResponse = none ∧
    (ApiContext.reset ctx).lastRequest = none ∧
    (ApiContext.reset ctx).scope = ctx.scope :=
  ⟨rfl, rfl, rfl, rfl, rfl⟩

/-! ## Claim C3: scope substitution -/

/-- C3 counterexample: `xMixed` contains the full delimited reference
pattern for the stored key `k` (as witnessed by `listContains`), yet
`ReplaceScopeVariables` returns the string unchanged — because the
regex's leftmost match is the earlier empty-key pattern, which the code
refuses to substitute.  The claim that the first reference pattern is
always replaced is therefore false. -/
theorem C3_counterexample :
    ctxKV.ReplaceScopeVariables xMixed = xMixed ∧
    listContains xMixed (refPat kKey) = true ∧
    mapLookup ctxKV.scope kKey = some vVal :=
  ⟨rfl, rfl, rfl⟩

/-- C3 (amended): `ReplaceScopeVariables` locates the leftmost,
shortest-group match of the backtick-`##`-key-backtick pattern; with no
match, or with an empty matched key, the string is returned unchanged;
otherwise exactly that first match is replaced by the stored value of
the key, the empty string when the key is absent. -/
theorem C3_theorem (ctx : ApiContext) (data : List Char) :
    (findRefSplit data = none → ctx.ReplaceScopeVariables data = data) ∧
    (∀ p r, findRefSplit data = some (p, [], r) →
      ctx.ReplaceScopeVariables data = data) ∧
    (∀ p k r, findRefSplit data = some (p, k, r) → k ≠ [] →
      ctx.ReplaceScopeVariables data = p ++ mapGetD ctx.scope k ++ r) := by
  refine ⟨?_, ?_, ?_⟩
  · intro h
    simp [ApiContext.ReplaceScopeVariables, h]
  · intro p r h
    simp [ApiContext.ReplaceScopeVariables, h]
  · intro p k r h hk
    have hk1 : ¬ k.length < 1 := by
      cases k with
      | nil => exact absurd rfl hk
      | cons a as => simp
    simp only [ApiContext.ReplaceScopeVariables, h]
    rw [if_neg hk1]
    exact findRef_replace _ _ _ _ _ h

/-- C3 witness: the spec's round trips, settled through the amended
theorem — with `k ↦ v` stored, resolving "prefix `##k` suffix" gives
"prefix v suffix"; with `k` unset it gives "prefix  suffix"; a string
with no reference is unchanged. -/
theorem C3_witness :
    ctxKV.ReplaceScopeVariables strRT = strRTres ∧
    (ApiContext.New baseB).ReplaceScopeVariables strRT = strRTunset ∧
    (ApiContext.New baseCE).ReplaceScopeVariables strPlain = strPlain := by
  refine ⟨?_, ?_, ?_⟩
  · exact ((C3_theorem ctxKV strRT).2.2 (("prefix ").toList) kKey ((" suffix").toList)
      rfl (by decide)).trans (by decide)
  · exact ((C3_theorem (ApiContext.New baseB) strRT).2.2 (("prefix ").toList) kKey
      ((" suffix").toList) rfl (by decide)).trans (by decide)
  · exact (C3_theorem (ApiContext.New baseCE) strPlain).1 rfl

/-! ## Claim C8: idempotence without markers -/

/-- C8: on a string in which the reference regex finds no match, scope
substitution is the identity, hence idempotent. -/
theorem C8_theorem (ctx : ApiContext) (x : List Char)
    (h : findRefSplit x = none) :
    ctx.ReplaceScopeVariables (ctx.ReplaceScopeVariables x) =
      ctx.ReplaceScopeVariables x := by
  have hx : ctx.ReplaceScopeVariables x = x := by
    simp [ApiContext.ReplaceScopeVariables, h]
  rw [hx]
  exact hx

/-- C8 witness: idempotence at the marker-free string "hello". -/
theorem C8_witness :
    findRefSplit sHello = none ∧
    (ApiContext.New baseB).ReplaceScopeVariables
        ((ApiContext.New baseB).ReplaceScopeVariables sHello) =
      (ApiContext.New baseB).ReplaceScopeVariables sHello :=
  ⟨rfl, C8_theorem (ApiContext.New baseB) sHello rfl⟩

/-! ## Claim C10: asserting a never-stored scope variable -/

/-- C10: when the key was never stored, the scope-variable assertion
reads it as the empty string, so it succeeds exactly when the expected
value is empty — there is no distinct unknown-variable error. -/
theorem C10_theorem (ctx : ApiContext) (key expected : List Char)
    (h : mapLookup ctx.scope key = none) :
    ctx.TheScopeVariableShouldHaveValue key expected = .ok ↔ expected = [] := by
  have hg : mapGetD ctx.scope key = [] := mapGetD_of_lookup_none _ _ h
  simp only [ApiContext.TheScopeVariableShouldHaveValue, hg]
  cases expected with
  | nil => simp
  | cons a as => simp

/-- C10 witness: on a fresh context, asserting a never-stored key
against the empty string succeeds, and against "x" does not. -/
theorem C10_witness :
    (ApiContext.New baseB).TheScopeVariableShouldHaveValue neverKey [] = .ok ∧
    ¬ (ApiContext.New baseB).TheScopeVariableShouldHaveValue neverKey vX = .ok := by
  constructor
  · exact (C10_theorem (ApiContext.New baseB) neverKey [] rfl).mpr rfl
  · intro hh
    have hx := (C10_theorem (ApiContext.New baseB) neverKey vX rfl).mp hh
    simp [vX] at hx

/-! ## Claim C5: substitution asymmetry of the setters -/

/-- C5: a header set through the bulk-table step stores the
substitution-resolved value, a header set through the single-header
step stores the value verbatim, and both query-parameter steps store
the substitution-resolved value. -/
theorem C5_theorem (ctx : ApiContext) (name value : List Char) :
    mapGetD (ctx.ISetHeadersTo [(name, value)]).headers name =
      ctx.ReplaceScopeVariables value ∧
    mapGetD (ctx.ISetHeaderWithValue name value).headers name = value ∧
    mapGetD (ctx.ISetQueryParamWithValue name value).queryParams name =
      ctx.ReplaceScopeVariables value ∧
    mapGetD (ctx.ISetQueryParamsTo [(name, value)]).queryParams name =
      ctx.ReplaceScopeVariables value := by
  refine ⟨?_, ?_, ?_, ?_⟩ <;>
    simp [ApiContext.ISetHeadersTo, ApiContext.ISetHeaderWithValue,
      ApiContext.ISetQueryParamWithValue, ApiContext.ISetQueryParamsTo,
      mapGetD_mapSet_self]

/-! ## Claim C9: header loop before the construction-error check -/

/-- C9: in `ISendRequestToWithBody` the accumulated headers are written
into the request before the construction error is checked; when
construction fails the step returns that error only with an empty
header accumulator, and dereferences the nil request (a panic) as soon
as one header is accumulated. -/
theorem C9_theorem (ctx : ApiContext) (client : HttpClient)
    (method uri requestBody : List Char) (e : StepError)
    (h : httpNewRequest method (ctx.baseURL ++ uri)
        (.raw (ctx.ReplaceScopeVariables requestBody)) = .error e) :
    (ctx.headers = [] →
      ctx.ISendRequestToWithBody client method uri requestBody = (.err e, ctx)) ∧
    (ctx.headers ≠ [] →
      (ctx.ISendRequestToWithBody client method uri requestBody).1 =
        .panicked .nilDeref) := by
  constructor
  · intro hh
    simp [ApiContext.ISendRequestToWithBody, h, hh, setHeadersLoop, Except.toOption]
  · intro hh
    cases hhdrs : ctx.headers with
    | nil => exact absurd hhdrs hh
    | cons a rest =>
      simp [ApiContext.ISendRequestToWithBody, h, hhdrs, setHeadersLoop, Except.toOption]

/-- C9 witness: with the invalid method "BAD METHOD", a fresh context
(no headers) gets the construction error returned, while a context with
one accumulated header panics on the nil request. -/
theorem C9_witness :
    (ApiContext.New baseB).ISendRequestToWithBody dummyClient badMethod uriX bodyX =
      (.err (.invalidMethod badMethod), ApiContext.New baseB) ∧
    (ctxOneH.ISendRequestToWithBody dummyClient badMethod uriX bodyX).1 =
      .panicked .nilDeref := by
  constructor
  · exact (C9_theorem (ApiContext.New baseB) dummyClient badMethod uriX bodyX
      (.invalidMethod badMethod) rfl).1 rfl
  · exact (C9_theorem ctxOneH dummyClient badMethod uriX bodyX
      (.invalidMethod badMethod) rfl).2 (by decide)

/-! ## Claim C6: missing upload file in the form-body step -/

/-- C6 counterexample: with the referenced upload file absent, the
form-body step does not return a step-level error at all — `isErr` is
false — it aborts through `panic(err)`.  The claim that the failure is
surfaced as a returned error (and by no other mechanism) is false. -/
theorem C6_counterexample :
    ((ApiContext.New baseB).ISendRequestToWithFormBody dummyClient [] postMethod uriUp
        [(fKey, missingPath, kindFile)]).1 =
      .panicked (.thrown (.fileOpenErr missingPath)) ∧
    StepResult.isErr (((ApiContext.New baseB).ISendRequestToWithFormBody dummyClient []
        postMethod uriUp [(fKey, missingPath, kindFile)]).1) = false :=
  ⟨rfl, rfl⟩

/-- C6 (amended): failure to open a referenced upload file aborts the
form-body step through a runtime panic carrying the open error — it is
never silently ignored, but it is raised by `panic`, not returned as a
step-level error; this holds whatever the client, the later rows, or a
preceding text row. -/
theorem C6_theorem (ctx : ApiContext) (client : HttpClient) (fsFiles : FileSystem)
    (method uri key value tkey tval : List Char)
    (rest : List (List Char × List Char × List Char))
    (h : mapLookup fsFiles (ctx.ReplaceScopeVariables value) = none) :
    (ctx.ISendRequestToWithFormBody client fsFiles method uri
        ((key, value, kindFile) :: rest)).1 =
      .panicked (.thrown (.fileOpenErr (ctx.ReplaceScopeVariables value))) ∧
    (ctx.ISendRequestToWithFormBody client fsFiles method uri
        ((tkey, tval, kindText) :: (key, value, kindFile) :: rest)).1 =
      .panicked (.thrown (.fileOpenErr (ctx.ReplaceScopeVariables value))) := by
  have hne : ¬ kindFile = kindText := by decide
  constructor
  · simp [ApiContext.ISendRequestToWithFormBody, processFormRows, hne, h]
  · simp [ApiContext.ISendRequestToWithFormBody, processFormRows, hne, h]

/-- C6 witness: a table with a text row followed by a file row whose
path exists in no file panics with that path's open error. -/
theorem C6_witness :
    ((ApiContext.New baseCE).ISendRequestToWithFormBody dummyClient [] postMethod uriUp
        [(tName, tVal, kindText), (fKey, filePathP, kindFile)]).1 =
      .panicked (.thrown (.fileOpenErr filePathP)) :=
  (C6_theorem (ApiContext.New baseCE) dummyClient [] postMethod uriUp fKey
    filePathP tName tVal [] rfl).2

/-! ## Claim C1: assertions without a captured response -/

/-- C1 counterexample: on a fresh context (no response captured) the
status-code assertion panics on the nil dereference; it does not return
any error, let alone a distinct "no response yet" one — `isErr` is
false. -/
theorem C1_counterexample :
    (ApiContext.New baseCE).TheResponseCodeShouldBe 200 = .panicked .nilDeref ∧
    StepResult.isErr ((ApiContext.New baseCE).TheResponseCodeShouldBe 200) = false :=
  ⟨rfl, rfl⟩

/-- C1 (amended): when no response has been captured, no assertion step
returns a "no response yet" error: the status-code, JSON-validity,
JSON-path value/match/presence/count, deep-JSON-equality, body
contains/match and header checks all dereference the nil last response
and panic; the schema check first returns its missing-schema-file error
when the schema file is absent, and panics likewise when it exists. -/
theorem C1_theorem (ctx : ApiContext) (h : ctx.lastResponse = none) :
    (∀ code, ctx.TheResponseCodeShouldBe code = .panicked .nilDeref) ∧
    (ctx.TheResponseShouldBeAValidJSON = .panicked .nilDeref) ∧
    (∀ p e, ctx.TheJSONPathShouldHaveValue p e = .panicked .nilDeref) ∧
    (∀ m p pat, ctx.TheJSONPathShouldMatch m p pat = .panicked .nilDeref) ∧
    (∀ p, ctx.TheJSONPathShouldBePresent p = .panicked .nilDeref) ∧
    (∀ p n, ctx.TheJSONPathHaveCount p n = .panicked .nilDeref) ∧
    (∀ d, ctx.TheResponseShouldMatchJSON d = .panicked .nilDeref) ∧
    (∀ s, ctx.TheResponseBodyShouldContain s = .panicked .nilDeref) ∧
    (∀ m pat, ctx.TheResponseBodyShouldMatch m pat = .panicked .nilDeref) ∧
    (∀ n v, ctx.TheResponseHeaderShouldHaveValue n v = .panicked .nilDeref) ∧
    (∀ (validator : SchemaValidator) (fsFiles : FileSystem) (p : List Char),
      ctx.TheResponseShouldMatchJsonSchema validator fsFiles p =
        match mapLookup fsFiles (schemaFullPath ctx.jSONSchemasPath p) with
        | none => .err (.schemaFileMissing (schemaFullPath ctx.jSONSchemasPath p))
        | some _ => .panicked .nilDeref) := by
  refine ⟨?_, ?_, ?_, ?_, ?_, ?_, ?_, ?_, ?_, ?_, ?_⟩
  · intro code; simp [ApiContext.TheResponseCodeShouldBe, h]
  · simp [ApiContext.TheResponseShouldBeAValidJSON, h]
  · intro p e; simp [ApiContext.TheJSONPathShouldHaveValue, h]
  · intro m p pat; simp [ApiContext.TheJSONPathShouldMatch, h]
  · intro p; simp [ApiContext.TheJSONPathShouldBePresent, h]
  · intro p n; simp [ApiContext.TheJSONPathHaveCount, h]
  · intro d; simp [ApiContext.TheResponseShouldMatchJSON, h]
  · intro s; simp [ApiContext.TheResponseBodyShouldContain, h]
  · intro m pat; simp [ApiContext.TheResponseBodyShouldMatch, h]
  · intro n v; simp [ApiContext.TheResponseHeaderShouldHaveValue, h]
  · intro validator fsFiles p
    cases hm : mapLookup fsFiles (schemaFullPath ctx.jSONSchemasPath p) with
    | none => simp [ApiContext.TheResponseShouldMatchJsonSchema, hm]
    | some c => simp [ApiContext.TheResponseShouldMatchJsonSchema, hm, h]

/-- C1 witness: each assertion, run on a fresh context with concrete
arguments, panics; the schema check returns the missing-file error on an
empty filesystem and panics when the schema file exists. -/
theorem C1_witness :
    (ApiContext.New baseB).TheResponseCodeShouldBe 404 = .panicked .nilDeref ∧
    (ApiContext.New baseB).TheResponseShouldBeAValidJSON = .panicked .nilDeref ∧
    (ApiContext.New baseB).TheJSONPathShouldHaveValue pathA valA = .panicked .nilDeref ∧
    (ApiContext.New baseB).TheJSONPathShouldMatch dummyMatcher pathA valA = .panicked .nilDeref ∧
    (ApiContext.New baseB).TheJSONPathShouldBePresent pathA = .panicked .nilDeref ∧
    (ApiContext.New baseB).TheJSONPathHaveCount pathRoot 2 = .panicked .nilDeref ∧
    (ApiContext.New baseB).TheResponseShouldMatchJSON bodyX = .panicked .nilDeref ∧
    (ApiContext.New baseB).TheResponseBodyShouldContain sHello = .panicked .nilDeref ∧
    (ApiContext.New baseB).TheResponseBodyShouldMatch dummyMatcher sHello = .panicked .nilDeref ∧
    (ApiContext.New baseB).TheResponseHeaderShouldHaveValue ctName appJson = .panicked .nilDeref ∧
    (ApiContext.New baseB).TheResponseShouldMatchJsonSchema dummyValidator [] pSch =
      .err (.schemaFileMissing (schemaFullPath defaultSchemasPath pSch)) ∧
    (ApiContext.New baseB).TheResponseShouldMatchJsonSchema dummyValidator fsWithSchema pSch =
      .panicked .nilDeref := by
  have h := C1_theorem (ApiContext.New baseB) rfl
  exact ⟨h.1 404, h.2.1, h.2.2.1 pathA valA, h.2.2.2.1 dummyMatcher pathA valA,
    h.2.2.2.2.1 pathA, h.2.2.2.2.2.1 pathRoot 2, h.2.2.2.2.2.2.1 bodyX,
    h.2.2.2.2.2.2.2.1 sHello, h.2.2.2.2.2.2.2.2.1 dummyMatcher sHello,
    h.2.2.2.2.2.2.2.2.2.1 ctName appJson,
    h.2.2.2.2.2.2.2.2.2.2 dummyValidator [] pSch,
    h.2.2.2.2.2.2.2.2.2.2 dummyValidator fsWithSchema pSch⟩

/-! ## Claim C4: type-aware JSON-path value check -/

/-- C4: the expected text is parsed according to the runtime type of the
actual value at the path — `ParseBool` for a boolean, `ParseFloat` for
a number (with numeric comparison), the raw string otherwise — the
check succeeds exactly when the parsed values agree, an unparseable
expected text is the strconv parse error, an array or object actual
never equals the string-typed expected, and a null actual is the
reflect-on-nil panic. -/
theorem C4_theorem (ctx : ApiContext) (pathExpr expectedValue : List Char)
    (resp : ApiResponse) (j a : Json)
    (h1 : ctx.lastResponse = some resp)
    (h2 : jsonUnmarshal resp.body = .ok j)
    (h3 : jsonpathGet pathExpr j = .ok a) :
    (∀ b, a = Json.bool b →
      (ctx.TheJSONPathShouldHaveValue pathExpr expectedValue = .ok ↔
        goParseBool (ctx.ReplaceScopeVariables expectedValue) = .ok b)) ∧
    (∀ b, a = Json.bool b →
      goParseBool (ctx.ReplaceScopeVariables expectedValue) = .error () →
      ctx.TheJSONPathShouldHaveValue pathExpr expectedValue =
        .err (.strconvErr pbName (ctx.ReplaceScopeVariables expectedValue))) ∧
    (∀ d, a = Json.num d →
      (ctx.TheJSONPathShouldHaveValue pathExpr expectedValue = .ok ↔
        ∃ d2, goParseFloat (ctx.ReplaceScopeVariables expectedValue) = .ok d2 ∧
          GoNum.eqv d2 d = true)) ∧
    (∀ d, a = Json.num d →
      goParseFloat (ctx.ReplaceScopeVariables expectedValue) = .error () →
      ctx.TheJSONPathShouldHaveValue pathExpr expectedValue =
        .err (.strconvErr pfName (ctx.ReplaceScopeVariables expectedValue))) ∧
    (∀ s, a = Json.str s →
      (ctx.TheJSONPathShouldHaveValue pathExpr expectedValue = .ok ↔
        ctx.ReplaceScopeVariables expectedValue = s)) ∧
    (∀ xs, a = Json.arr xs →
      ctx.TheJSONPathShouldHaveValue pathExpr expectedValue =
        .err (.valueMismatch (.str (ctx.ReplaceScopeVariables expectedValue)) (Json.arr xs))) ∧
    (∀ fs, a = Json.obj fs →
      ctx.TheJSONPathShouldHaveValue pathExpr expectedValue =
        .err (.valueMismatch (.str (ctx.ReplaceScopeVariables expectedValue)) (Json.obj fs))) ∧
    (a = Json.null →
      ctx.TheJSONPathShouldHaveValue pathExpr expectedValue = .panicked .nilDeref) := by
  refine ⟨?_, ?_, ?_, ?_, ?_, ?_, ?_, ?_⟩
  · intro b hb; subst hb
    simp only [ApiContext.TheJSONPathShouldHaveValue, h1, h2, h3]
    cases hpb : goParseBool (ctx.ReplaceScopeVariables expectedValue) with
    | error u => simp [hpb]
    | ok b2 =>
      simp only [hpb, Json.scalarEq]
      by_cases hbb : b2 = b
      · subst hbb; simp
      · simp [hbb]
  · intro b hb hpb; subst hb
    simp [ApiContext.TheJSONPathShouldHaveValue, h1, h2, h3, hpb]
  · intro d hd; subst hd
    simp only [ApiContext.TheJSONPathShouldHaveValue, h1, h2, h3]
    cases hpf : goParseFloat (ctx.ReplaceScopeVariables expectedValue) with
    | error u => simp [hpf]
    | ok q =>
      simp only [hpf, Json.scalarEq]
      by_cases hq : GoNum.eqv q d = true
      · simp [hq]
      · simp [hq]
  · intro d hd hpf; subst hd
    simp [ApiContext.TheJSONPathShouldHaveValue, h1, h2, h3, hpf]
  · intro s hs; subst hs
    simp only [ApiContext.TheJSONPathShouldHaveValue, h1, h2, h3, Json.scalarEq]
    by_cases hE : ctx.ReplaceScopeVariables expectedValue = s
    · simp [hE]
    · simp [hE]
  · intro xs hxs; subst hxs
    have hfalse : Json.scalarEq (.str (ctx.ReplaceScopeVariables expectedValue))
        (Json.arr xs) = false := rfl
    simp [ApiContext.TheJSONPathShouldHaveValue, h1, h2, h3, hfalse]
  · intro fs hfs; subst hfs
    have hfalse : Json.scalarEq (.str (ctx.ReplaceScopeVariables expectedValue))
        (Json.obj fs) = false := rfl
    simp [ApiContext.TheJSONPathShouldHaveValue, h1, h2, h3, hfalse]
  · intro h0; subst h0
    simp [ApiContext.TheJSONPathShouldHaveValue, h1, h2, h3]

/-- C4 witness: the spec's example body — `$.a` against "a", `$.b`
against "2", `$.c` against "3.5" and `$.d` against "true" all succeed,
and `$.b` against "abc" is the ParseFloat error. -/
theorem C4_witness :
    ctxC4.TheJSONPathShouldHaveValue pathA valA = .ok ∧
    ctxC4.TheJSONPathShouldHaveValue pathB valB = .ok ∧
    ctxC4.TheJSONPathShouldHaveValue pathC valC = .ok ∧
    ctxC4.TheJSONPathShouldHaveValue pathD valD = .ok ∧
    ctxC4.TheJSONPathShouldHaveValue pathB valAbc =
      .err (.strconvErr pfName valAbc) := by
  refine ⟨?_, ?_, ?_, ?_, ?_⟩
  · exact ((C4_theorem ctxC4 pathA valA respC4 jC4 (.str valA)
      rfl rfl rfl).2.2.2.2.1 valA rfl).mpr rfl
  · exact ((C4_theorem ctxC4 pathB valB respC4 jC4 (.num ⟨2, 0⟩)
      rfl rfl rfl).2.2.1 ⟨2, 0⟩ rfl).mpr ⟨⟨2, 0⟩, rfl, rfl⟩
  · exact ((C4_theorem ctxC4 pathC valC respC4 jC4 (.num ⟨35, 1⟩)
      rfl rfl rfl).2.2.1 ⟨35, 1⟩ rfl).mpr ⟨⟨35, 1⟩, rfl, rfl⟩
  · exact ((C4_theorem ctxC4 pathD valD respC4 jC4 (.bool true)
      rfl rfl rfl).1 true rfl).mpr rfl
  · exact (C4_theorem ctxC4 pathB valAbc respC4 jC4 (.num ⟨2, 0⟩)
      rfl rfl rfl).2.2.2.1 ⟨2, 0⟩ rfl rfl

/-! ## Claim C7: JSON-path count check -/

/-- C7: the count check fails on every non-array value at the path,
naming that value, and on an array value succeeds exactly when the
array's length equals the expected count. -/
theorem C7_theorem (ctx : ApiContext) (pathExpr : List Char) (cnt : Nat)
    (resp : ApiResponse) (j v : Json)
    (h1 : ctx.lastResponse = some resp)
    (h2 : jsonUnmarshal resp.body = .ok j)
    (h3 : jsonpathGet pathExpr j = .ok v) :
    (v.isArr = false →
      ctx.TheJSONPathHaveCount pathExpr cnt = .err (.notArray pathExpr v)) ∧
    (∀ xs, v = Json.arr xs →
      (ctx.TheJSONPathHaveCount pathExpr cnt = .ok ↔ xs.length = cnt)) := by
  constructor
  · intro hv
    cases v
    case arr xs => simp [Json.isArr] at hv
    all_goals simp [ApiContext.TheJSONPathHaveCount, h1, h2, h3]
  · intro xs hxs; subst hxs
    simp only [ApiContext.TheJSONPathHaveCount, h1, h2, h3]
    by_cases hl : xs.length = cnt
    · simp [hl]
    · simp [hl]

/-- C7 witness: the root-level two-element array with expected count 2
succeeds; the string value at `$.a` of the example object fails naming
that value. -/
theorem C7_witness :
    ctxC7.TheJSONPathHaveCount pathRoot 2 = .ok ∧
    ctxC4.TheJSONPathHaveCount pathA 2 = .err (.notArray pathA (.str valA)) := by
  constructor
  · exact ((C7_theorem ctxC7 pathRoot 2 respC7 jC7 jC7 rfl rfl rfl).2
      [.str ['x'], .str ['y']] rfl).mpr rfl
  · exact (C7_theorem ctxC4 pathA 2 respC4 jC4 (.str valA) rfl rfl rfl).1 rfl

end Apictx
